import Mathlib

/-!
Verification of the CPCB EPR dashboard scraper core (`scrap.py`).

The Python source is shallowly embedded: JSON values become an inductive
type, Python exceptions become an error type threaded through `Except`,
the network layer becomes an oracle parameter, and the pandas finishing
step (`drop_duplicates().reset_index(drop=True)` over a fixed column
list) becomes a keep-first deduplication on a list of rows.
-/

namespace Scrap

/-- A JSON value, as produced by `resp.json()`.  Numbers are modelled as
integers (the responses consumed by the scraper carry only strings and
nulls, so the number representation is irrelevant to every property
proved below). -/
inductive Json where
  | null : Json
  | bool : Bool → Json
  | num : Int → Json
  | str : String → Json
  | arr : List Json → Json
  | obj : List (String × Json) → Json
deriving Repr

mutual

/-- Decidable equality of JSON values (the automatic derivation does not
handle the nesting through lists). -/
def Json.decEq : (a b : Json) → Decidable (a = b)
  | .null, .null => .isTrue rfl
  | .bool a, .bool b =>
    @decidable_of_iff _ (a = b) ⟨fun h => by rw [h], Json.bool.inj⟩ inferInstance
  | .num a, .num b =>
    @decidable_of_iff _ (a = b) ⟨fun h => by rw [h], Json.num.inj⟩ inferInstance
  | .str a, .str b =>
    @decidable_of_iff _ (a = b) ⟨fun h => by rw [h], Json.str.inj⟩ inferInstance
  | .arr xs, .arr ys =>
    @decidable_of_iff _ (xs = ys) ⟨fun h => by rw [h], Json.arr.inj⟩
      (Json.decEqList xs ys)
  | .obj xs, .obj ys =>
    @decidable_of_iff _ (xs = ys) ⟨fun h => by rw [h], Json.obj.inj⟩
      (Json.decEqKvs xs ys)
  | .null, .bool _ => .isFalse (fun h => Json.noConfusion h)
  | .null, .num _ => .isFalse (fun h => Json.noConfusion h)
  | .null, .str _ => .isFalse (fun h => Json.noConfusion h)
  | .null, .arr _ => .isFalse (fun h => Json.noConfusion h)
  | .null, .obj _ => .isFalse (fun h => Json.noConfusion h)
  | .bool _, .null => .isFalse (fun h => Json.noConfusion h)
  | .bool _, .num _ => .isFalse (fun h => Json.noConfusion h)
  | .bool _, .str _ => .isFalse (fun h => Json.noConfusion h)
  | .bool _, .arr _ => .isFalse (fun h => Json.noConfusion h)
  | .bool _, .obj _ => .isFalse (fun h => Json.noConfusion h)
  | .num _, .null => .isFalse (fun h => Json.noConfusion h)
  | .num _, .bool _ => .isFalse (fun h => Json.noConfusion h)
  | .num _, .str _ => .isFalse (fun h => Json.noConfusion h)
  | .num _, .arr _ => .isFalse (fun h => Json.noConfusion h)
  | .num _, .obj _ => .isFalse (fun h => Json.noConfusion h)
  | .str _, .null => .isFalse (fun h => Json.noConfusion h)
  | .str _, .bool _ => .isFalse (fun h => Json.noConfusion h)
  | .str _, .num _ => .isFalse (fun h => Json.noConfusion h)
  | .str _, .arr _ => .isFalse (fun h => Json.noConfusion h)
  | .str _, .obj _ => .isFalse (fun h => Json.noConfusion h)
  | .arr _, .null => .isFalse (fun h => Json.noConfusion h)
  | .arr _, .bool _ => .isFalse (fun h => Json.noConfusion h)
  | .arr _, .num _ => .isFalse (fun h => Json.noConfusion h)
  | .arr _, .str _ => .isFalse (fun h => Json.noConfusion h)
  | .arr _, .obj _ => .isFalse (fun h => Json.noConfusion h)
  | .obj _, .null => .isFalse (fun h => Json.noConfusion h)
  | .obj _, .bool _ => .isFalse (fun h => Json.noConfusion h)
  | .obj _, .num _ => .isFalse (fun h => Json.noConfusion h)
  | .obj _, .str _ => .isFalse (fun h => Json.noConfusion h)
  | .obj _, .arr _ => .isFalse (fun h => Json.noConfusion h)

/-- Decidable equality of JSON arrays. -/
def Json.decEqList : (xs ys : List Json) → Decidable (xs = ys)
  | [], [] => .isTrue rfl
  | [], _ :: _ => .isFalse (fun h => List.noConfusion h)
  | _ :: _, [] => .isFalse (fun h => List.noConfusion h)
  | x :: xs, y :: ys =>
    match Json.decEq x y, Json.decEqList xs ys with
    | .isTrue h1, .isTrue h2 => .isTrue (by rw [h1, h2])
    | .isFalse h1, _ => .isFalse (fun h => h1 (List.cons.inj h).1)
    | _, .isFalse h2 => .isFalse (fun h => h2 (List.cons.inj h).2)

/-- Decidable equality of JSON object entry lists. -/
def Json.decEqKvs : (xs ys : List (String × Json)) → Decidable (xs = ys)
  | [], [] => .isTrue rfl
  | [], _ :: _ => .isFalse (fun h => List.noConfusion h)
  | _ :: _, [] => .isFalse (fun h => List.noConfusion h)
  | (k1, v1) :: xs, (k2, v2) :: ys =>
    match String.decEq k1 k2, Json.decEq v1 v2, Json.decEqKvs xs ys with
    | .isTrue h0, .isTrue h1, .isTrue h2 => .isTrue (by rw [h0, h1, h2])
    | .isFalse h0, _, _ =>
      .isFalse (fun h => h0 (congrArg Prod.fst (List.cons.inj h).1))
    | _, .isFalse h1, _ =>
      .isFalse (fun h => h1 (congrArg Prod.snd (List.cons.inj h).1))
    | _, _, .isFalse h2 => .isFalse (fun h => h2 (List.cons.inj h).2)

end

instance : DecidableEq Json := Json.decEq

deriving instance DecidableEq for Except

/-- Python exceptions that the embedded code can raise (other than the
`requests.RequestException` family, which `scrape` catches and which is
modelled by `NetResult.failure`). -/
inductive PyError where
  | keyError : String → PyError
  | attributeError : PyError
  | typeError : PyError
deriving Repr, DecidableEq

/-- Python `d.get(k, default)` on a dict: the stored value if the key is
present (even when that value is `None`), the default otherwise. -/
def dictGet (kvs : List (String × Json)) (k : String) (dflt : Json) : Json :=
  (kvs.lookup k).getD dflt

/-- Python truthiness of a JSON value: `None`, `False`, `0`, `""`, `[]`
and `{}` are falsy. -/
def Json.falsy : Json → Bool
  | .null => true
  | .bool b => !b
  | .num n => n == 0
  | .str s => s.isEmpty
  | .arr xs => xs.isEmpty
  | .obj kvs => kvs.isEmpty

/-- Python `x or y`. -/
def pyOr (x y : Json) : Json := if x.falsy then y else x

/-- Whether a JSON value is an object (a Python dict). -/
def Json.isObj : Json → Bool
  | .obj _ => true
  | _ => false

/-- One row of the output table.  Field values are JSON values because
`row.get(...) or ""` can yield any truthy JSON value; in practice they
are strings. -/
structure TidyRow where
  Name : Json
  Address : Json
  Email : Json
  Category : Json
deriving Repr, DecidableEq

/-- `APPLICANT_TYPES` from the source. -/
def APPLICANT_TYPES : List String := ["Brand Owner", "Producer", "Importer"]

/-- `STATUSES_UI` from the source. -/
def STATUSES_UI : List String := ["In Process", "Not Approved", "Registered"]

/-- `STATUS_MAP` from the source: UI label ↦ (status_api, status_text). -/
def STATUS_MAP : List (String × String × String) :=
  [("In Process", ("InProgress", "In Process")),
   ("Not Approved", ("notApproved", "Not Approved")),
   ("Registered", ("registered", "Registered"))]

/-- `PREFIX_MAP` from the source: applicant type ↦ category marker. -/
def PREFIX_MAP : List (String × String) :=
  [("Brand Owner", "BO-"), ("Producer", "Pro-"), ("Importer", "Imp-")]

/-- The JSON body built by `build_payload`.  `json.dumps` of the Python
dict is modelled by the value object itself; `int(count_value)` is the
identity on the integer model. -/
structure RequestPayload where
  status : String
  countValue : Int
  statusText : String
  applicantType : String
deriving Repr, DecidableEq

/-- `build_payload(status_api, status_text, applicant_type, count_value)`
from the source. -/
def build_payload (status_api status_text applicant_type : String)
    (count_value : Int) : RequestPayload :=
  { status := status_api
    countValue := count_value
    statusText := status_text
    applicantType := applicant_type }

/-- The spec-level payload-builder contract
`buildPayload(statusUiLabel, applicantType, recordLimit)`: the
`STATUS_MAP[status_ui]` lookup performed by `scrape` (a `KeyError`,
modelled as `none`, when the label is unrecognized) followed by
`build_payload`. -/
def buildPayloadFromUi (statusUiLabel applicantType : String)
    (recordLimit : Int) : Option RequestPayload :=
  (STATUS_MAP.lookup statusUiLabel).map
    (fun st => build_payload st.1 st.2 applicantType recordLimit)

/-- The loop body of `tidy_rows` applied to one element of the iterated
`rows`: `row.get("company", "") or ""` etc.  A non-dict element has no
`.get` method, so Python raises `AttributeError`. -/
def tidyRowOf (row : Json) (category_label : String) :
    Except PyError TidyRow :=
  match row with
  | .obj kvs =>
    .ok { Name := pyOr (dictGet kvs "company" (.str "")) (.str "")
          Address := pyOr (dictGet kvs "address" (.str "")) (.str "")
          Email := pyOr (dictGet kvs "email" (.str "")) (.str "")
          Category := .str category_label }
  | _ => .error .attributeError

/-- Python `for row in rows` over an arbitrary value: lists yield their
elements, strings their one-character substrings, dicts their keys;
`None`, booleans and numbers are not iterable (`TypeError`). -/
def pyIter : Json → Except PyError (List Json)
  | .arr xs => .ok xs
  | .str s => .ok (s.toList.map (fun c => .str (String.singleton c)))
  | .obj kvs => .ok (kvs.map (fun kv => .str kv.1))
  | _ => .error .typeError

/-- Helper for `tidy_rows`: normalize each iterated element in order,
propagating the first raised exception. -/
def tidyRowsList (elems : List Json) (category_label : String) :
    Except PyError (List TidyRow) :=
  match elems with
  | [] => .ok []
  | r :: rest => do
    let row ← tidyRowOf r category_label
    let out ← tidyRowsList rest category_label
    pure (row :: out)

/-- `tidy_rows(rows, category_label)` from the source.  The annotation
`rows: List[Dict]` is not enforced by Python, so the argument is an
arbitrary JSON value that the `for` loop iterates. -/
def tidy_rows (rows : Json) (category_label : String) :
    Except PyError (List TidyRow) := do
  let elems ← pyIter rows
  tidyRowsList elems category_label

/-- The chained access
`data.get("data", {}).get("tableData", {}).get("bodyContent", [])` from
`scrape`.  Each `.get` exists only on a dict, so a non-object value at
any level raises `AttributeError`. -/
def extractBodyContent : Json → Except PyError Json
  | .obj kvs =>
    match dictGet kvs "data" (.obj []) with
    | .obj kvs2 =>
      match dictGet kvs2 "tableData" (.obj []) with
      | .obj kvs3 => .ok (dictGet kvs3 "bodyContent" (.arr []))
      | _ => .error .attributeError
    | _ => .error .attributeError
  | _ => .error .attributeError

/-- The whole response-normalization step of one successful call:
extract `bodyContent`, then `tidy_rows`. -/
def normalize (body : Json) (category_label : String) :
    Except PyError (List TidyRow) :=
  (extractBodyContent body).bind (fun rows => tidy_rows rows category_label)

/-- Outcome of one `requests.post(...)` + `raise_for_status()` +
`resp.json()` sequence, as seen by `scrape`: either a parsed JSON body,
or any member of the `requests.RequestException` family (non-2xx HTTP
status, timeout, connection error, malformed JSON body) carrying its
`str(e)` message. -/
inductive NetResult where
  | success : Json → NetResult
  | failure : String → NetResult

/-- The network, abstracted: the response for the call made for one
(applicant type, UI status) combination.  The request payload is a pure
function of that pair plus the constant `count_value`, so keying the
oracle by the pair loses nothing. -/
abbrev Oracle := String → String → NetResult

/-- The sentinel row appended in the `except requests.RequestException`
branch of `scrape`. -/
def sentinelRow (category_label msg : String) : TidyRow :=
  { Name := .str ""
    Address := .str ""
    Email := .str ""
    Category := .str (category_label ++ " (ERROR: " ++ msg ++ ")") }

/-- Processing of one combination's network outcome under a fixed
category label: the `try`/`except` body of `scrape` after the call. -/
def fetchCombo (r : NetResult) (category_label : String) :
    Except PyError (List TidyRow) :=
  match r with
  | .failure msg => .ok [sentinelRow category_label msg]
  | .success body => normalize body category_label

/-- The category label `f"{cat_prefix}{status_text}"` of a combination,
`none` when either lookup would raise `KeyError`. -/
def categoryLabel (applicant status_ui : String) : Option String := do
  let st ← STATUS_MAP.lookup status_ui
  let pfx ← PREFIX_MAP.lookup applicant
  pure (pfx ++ st.2)

/-- Everything one loop iteration of `scrape` does to produce rows for
one combination: the two map lookups (`KeyError` on a label outside the
fixed maps), then the network call and its processing. -/
def processCombo (oracle : Oracle) (applicant status_ui : String) :
    Except PyError (List TidyRow) :=
  match STATUS_MAP.lookup status_ui with
  | none => .error (.keyError status_ui)
  | some st =>
    match PREFIX_MAP.lookup applicant with
    | none => .error (.keyError applicant)
    | some pfx => fetchCombo (oracle applicant status_ui) (pfx ++ st.2)

/-- The inner `for status_ui in selected_statuses` loop for one applicant
type.  Returns the network calls issued (in order) and either the rows
accumulated or the first uncaught exception.  A `KeyError` on the map
lookups fires before the call for that combination is issued; an
exception while processing a response fires after. -/
def scrapeInner (oracle : Oracle) (applicant : String) :
    List String → List (String × String) × Except PyError (List TidyRow)
  | [] => ([], .ok [])
  | status_ui :: rest =>
    match STATUS_MAP.lookup status_ui with
    | none => ([], .error (.keyError status_ui))
    | some st =>
      match PREFIX_MAP.lookup applicant with
      | none => ([], .error (.keyError applicant))
      | some pfx =>
        match fetchCombo (oracle applicant status_ui) (pfx ++ st.2) with
        | .error err => ([(applicant, status_ui)], .error err)
        | .ok rows =>
          let next := scrapeInner oracle applicant rest
          ((applicant, status_ui) :: next.1, next.2.map (fun tl => rows ++ tl))

/-- The outer `for applicant in selected_types` loop of `scrape`:
accumulates calls and rows across applicant types. -/
def scrapeCollect (oracle : Oracle) :
    List String → List String → List (String × String) × Except PyError (List TidyRow)
  | [], _ => ([], .ok [])
  | applicant :: rest, statuses =>
    match scrapeInner oracle applicant statuses with
    | (calls, .error err) => (calls, .error err)
    | (calls, .ok rows) =>
      let next := scrapeCollect oracle rest statuses
      (calls ++ next.1, next.2.map (fun tl => rows ++ tl))

/-- `DataFrame(collected, columns=[...])` restricted to what the program
observes: the column list and the ordered rows (`reset_index(drop=True)`
is the identity on this model, positions being the indices). -/
structure DataFrame where
  columns : List String
  rows : List TidyRow
deriving Repr, DecidableEq

/-- pandas `drop_duplicates()` with default arguments: keep the first
occurrence of each row, drop later exact duplicates, preserve order
(pandas marks a row as duplicated when an equal row was already seen
while scanning from the top). -/
def drop_duplicates {α : Type} [DecidableEq α] (l : List α) : List α :=
  go [] l
where
  go (seen : List α) : List α → List α
    | [] => []
    | a :: rest => if a ∈ seen then go seen rest else a :: go (a :: seen) rest

/-- The two final lines of `scrape`:
`pd.DataFrame(collected, columns=["Name","Address","Email","Category"])`
then `drop_duplicates().reset_index(drop=True)`. -/
def finalize (collected : List TidyRow) : DataFrame :=
  { columns := ["Name", "Address", "Email", "Category"]
    rows := drop_duplicates collected }

/-- `scrape(selected_types, selected_statuses, count_value)` with the
network abstracted by `oracle`: the calls issued, and either the final
deduplicated table or the uncaught exception.  `count_value` only enters
the request payload, which the oracle abstracts, so it does not appear
as an argument. -/
def scrape (oracle : Oracle) (selected_types selected_statuses : List String) :
    List (String × String) × Except PyError DataFrame :=
  match scrapeCollect oracle selected_types selected_statuses with
  | (calls, res) => (calls, res.map finalize)

/-- Modelled from the spec (§4.4): "Removes rows that are exact
duplicates across all four fields …; first occurrence is kept, order
otherwise preserved" — each row is kept and its later exact duplicates
are filtered away before the rest is processed.  To be compared with
`drop_duplicates`. -/
def keepFirstSpec {α : Type} [DecidableEq α] : List α → List α
  | [] => []
  | a :: rest => a :: keepFirstSpec (rest.filter (fun b => b ≠ a))
termination_by l => l.length
decreasing_by
  exact Nat.lt_succ_of_le (List.length_filter_le _ _)

/-- The mocked response body of the spec's happy-path scenario. -/
def acmeBody : Json :=
  Json.obj [("data", Json.obj [("tableData", Json.obj [("bodyContent",
    Json.arr [Json.obj [("company", Json.str "Acme Co"),
      ("address", Json.str "123 Road"),
      ("email", Json.str "a@x.com")]])])])]

/-! ### Properties of the deduplication step -/

theorem keepFirstSpec_sublist {α : Type} [DecidableEq α] (l : List α) :
    (keepFirstSpec l).Sublist l := by
  induction l using keepFirstSpec.induct with
  | case1 => simp [keepFirstSpec]
  | case2 a rest ih =>
    rw [keepFirstSpec]
    exact List.Sublist.cons₂ a (ih.trans (List.filter_sublist rest))

theorem mem_keepFirstSpec {α : Type} [DecidableEq α] (l : List α) (b : α) :
    b ∈ keepFirstSpec l ↔ b ∈ l := by
  induction l using keepFirstSpec.induct with
  | case1 => simp [keepFirstSpec]
  | case2 a rest ih =>
    rw [keepFirstSpec]
    by_cases hba : b = a
    · subst hba; simp
    · simp only [List.mem_cons, ih, List.mem_filter, ne_eq, decide_eq_true_eq]
      simp [hba]

theorem nodup_keepFirstSpec {α : Type} [DecidableEq α] (l : List α) :
    (keepFirstSpec l).Nodup := by
  induction l using keepFirstSpec.induct with
  | case1 => simp [keepFirstSpec]
  | case2 a rest ih =>
    rw [keepFirstSpec]
    refine List.nodup_cons.mpr ⟨?_, ih⟩
    intro hmem
    have hm := (mem_keepFirstSpec _ _).mp hmem
    simp [List.mem_filter] at hm

theorem keepFirstSpec_eq_self {α : Type} [DecidableEq α] (l : List α)
    (h : l.Nodup) : keepFirstSpec l = l := by
  induction l using keepFirstSpec.induct with
  | case1 => simp [keepFirstSpec]
  | case2 a rest ih =>
    rw [List.nodup_cons] at h
    have hf : rest.filter (fun b => b ≠ a) = rest := by
      refine List.filter_eq_self.mpr (fun b hb => ?_)
      simp only [ne_eq, decide_eq_true_eq, decide_not, Bool.not_eq_false']
      by_cases hba : b = a
      · subst hba; exact absurd hb h.1
      · simp [hba]
    rw [keepFirstSpec, hf]
    rw [hf] at ih
    rw [ih h.2]

theorem drop_duplicates_go_eq {α : Type} [DecidableEq α] (seen l : List α) :
    drop_duplicates.go seen l = keepFirstSpec (l.filter (fun b => b ∉ seen)) := by
  induction l generalizing seen with
  | nil => simp [drop_duplicates.go, keepFirstSpec]
  | cons a rest ih =>
    by_cases ha : a ∈ seen
    · have hdrop : (a :: rest).filter (fun b => b ∉ seen) =
          rest.filter (fun b => b ∉ seen) := by
        simp [List.filter_cons, ha]
      rw [drop_duplicates.go, if_pos ha, hdrop, ih]
    · have hkeep : (a :: rest).filter (fun b => b ∉ seen) =
          a :: rest.filter (fun b => b ∉ seen) := by
        simp [List.filter_cons, ha]
      have hmerge : (rest.filter (fun b => b ∉ seen)).filter (fun b => b ≠ a) =
          rest.filter (fun b => b ∉ a :: seen) := by
        rw [List.filter_filter]
        refine List.filter_congr (fun b _ => ?_)
        by_cases hba : b = a
        · subst hba; simp
        · by_cases hbs : b ∈ seen <;> simp [hba, hbs]
      rw [drop_duplicates.go, if_neg ha, hkeep, keepFirstSpec, hmerge, ih]

theorem drop_duplicates_eq_keepFirstSpec {α : Type} [DecidableEq α]
    (l : List α) : drop_duplicates l = keepFirstSpec l := by
  rw [drop_duplicates, drop_duplicates_go_eq]
  congr 1
  refine List.filter_eq_self.mpr (fun b _ => ?_)
  simp

theorem drop_duplicates_sublist {α : Type} [DecidableEq α] (l : List α) :
    (drop_duplicates l).Sublist l := by
  rw [drop_duplicates_eq_keepFirstSpec]
  exact keepFirstSpec_sublist l

theorem mem_drop_duplicates {α : Type} [DecidableEq α] (l : List α) (b : α) :
    b ∈ drop_duplicates l ↔ b ∈ l := by
  rw [drop_duplicates_eq_keepFirstSpec]
  exact mem_keepFirstSpec l b

theorem nodup_drop_duplicates {α : Type} [DecidableEq α] (l : List α) :
    (drop_duplicates l).Nodup := by
  rw [drop_duplicates_eq_keepFirstSpec]
  exact nodup_keepFirstSpec l

theorem drop_duplicates_idem {α : Type} [DecidableEq α] (l : List α) :
    drop_duplicates (drop_duplicates l) = drop_duplicates l := by
  rw [drop_duplicates_eq_keepFirstSpec, drop_duplicates_eq_keepFirstSpec]
  exact keepFirstSpec_eq_self _ (nodup_keepFirstSpec l)

/-! ### Basic facts about row normalization -/

@[simp] theorem exceptBind_ok {α β ε : Type} (x : α) (f : α → Except ε β) :
    (do let a ← Except.ok x; f a) = f x := rfl

@[simp] theorem exceptBind_error {α β ε : Type} (err : ε) (f : α → Except ε β) :
    (do let a ← (Except.error err : Except ε α); f a) = Except.error err := rfl

@[simp] theorem exceptBindM_ok {α β ε : Type} (x : α) (f : α → Except ε β) :
    Except.bind (Except.ok x) f = f x := rfl

@[simp] theorem exceptBindM_error {α β ε : Type} (err : ε) (f : α → Except ε β) :
    Except.bind (Except.error err : Except ε α) f = Except.error err := rfl

@[simp] theorem exceptMap_ok {α β ε : Type} (x : α) (f : α → β) :
    (Except.ok x : Except ε α).map f = Except.ok (f x) := rfl

@[simp] theorem exceptMap_error {α β ε : Type} (err : ε) (f : α → β) :
    (Except.error err : Except ε α).map f = Except.error err := rfl

theorem isObj_iff (j : Json) : j.isObj = true ↔ ∃ kvs, j = Json.obj kvs := by
  cases j <;> simp [Json.isObj]

theorem tidyRowOf_category {row : Json} {cat : String} {r : TidyRow}
    (h : tidyRowOf row cat = .ok r) : r.Category = .str cat := by
  cases row <;> simp [tidyRowOf] at h
  subst h
  rfl

theorem tidyRowOf_nonobj {row : Json} (h : row.isObj = false) (cat : String) :
    tidyRowOf row cat = .error .attributeError := by
  cases row <;> simp_all [tidyRowOf, Json.isObj]

theorem tidyRowsList_ok (elems : List Json) (cat : String)
    (h : ∀ e ∈ elems, e.isObj = true) :
    ∃ rs, tidyRowsList elems cat = .ok rs ∧ rs.length = elems.length ∧
      ∀ r ∈ rs, r.Category = Json.str cat := by
  induction elems with
  | nil => exact ⟨[], rfl, rfl, by simp⟩
  | cons e rest ih =>
    obtain ⟨kvs, rfl⟩ := (isObj_iff e).mp (h e (by simp))
    obtain ⟨rs, hrs, hlen, hcat⟩ := ih (fun x hx => h x (by simp [hx]))
    refine ⟨{ Name := pyOr (dictGet kvs "company" (Json.str "")) (Json.str "")
              Address := pyOr (dictGet kvs "address" (Json.str "")) (Json.str "")
              Email := pyOr (dictGet kvs "email" (Json.str "")) (Json.str "")
              Category := Json.str cat } :: rs,
      by simp [tidyRowsList, tidyRowOf, hrs], by simp [hlen], ?_⟩
    intro r hr
    rcases List.mem_cons.mp hr with h1 | h1
    · subst h1; rfl
    · exact hcat r h1

theorem tidyRowsList_err (elems : List Json) (cat : String)
    (h : ∃ e ∈ elems, e.isObj = false) :
    tidyRowsList elems cat = .error .attributeError := by
  induction elems with
  | nil => simp at h
  | cons e rest ih =>
    by_cases he : e.isObj = true
    · have hr : ∃ x ∈ rest, x.isObj = false := by
        rcases h with ⟨x, hx, hfx⟩
        rcases List.mem_cons.mp hx with h1 | h1
        · subst h1; rw [hfx] at he; cases he
        · exact ⟨x, h1, hfx⟩
      obtain ⟨kvs, rfl⟩ := (isObj_iff e).mp he
      simp [tidyRowsList, tidyRowOf, ih hr]
    · rw [Bool.not_eq_true] at he
      simp [tidyRowsList, tidyRowOf_nonobj he]

theorem tidyRowsList_category (elems : List Json) (cat : String)
    (rs : List TidyRow) (h : tidyRowsList elems cat = .ok rs) :
    ∀ r ∈ rs, r.Category = Json.str cat := by
  induction elems generalizing rs with
  | nil =>
    simp [tidyRowsList] at h
    subst h; simp
  | cons e rest ih =>
    rw [tidyRowsList] at h
    cases he : tidyRowOf e cat with
    | error err => rw [he] at h; simp at h
    | ok row =>
      rw [he] at h
      cases hrest : tidyRowsList rest cat with
      | error err => rw [hrest] at h; simp at h
      | ok out =>
        rw [hrest] at h
        simp at h
        subst h
        intro r hr
        rcases List.mem_cons.mp hr with h1 | h1
        · subst h1; exact tidyRowOf_category he
        · exact ih out hrest r h1

theorem tidy_rows_category (rows : Json) (cat : String) (rs : List TidyRow)
    (h : tidy_rows rows cat = .ok rs) : ∀ r ∈ rs, r.Category = Json.str cat := by
  rw [tidy_rows] at h
  cases hi : pyIter rows with
  | error err => rw [hi] at h; simp at h
  | ok elems =>
    rw [hi] at h
    simp at h
    exact tidyRowsList_category elems cat rs h

theorem fetchCombo_prefix (r : NetResult) (label : String) (rs : List TidyRow)
    (h : fetchCombo r label = .ok rs) :
    ∀ row ∈ rs, ∃ tail, row.Category = Json.str (label ++ tail) := by
  cases r with
  | failure msg =>
    simp [fetchCombo] at h
    subst h
    intro row hrow
    simp at hrow
    subst hrow
    exact ⟨" (ERROR: " ++ msg ++ ")", by simp [sentinelRow, String.append_assoc]⟩
  | success body =>
    rw [fetchCombo, normalize] at h
    cases hx : extractBodyContent body with
    | error err => rw [hx] at h; simp at h
    | ok rows0 =>
      rw [hx] at h
      simp at h
      intro row hrow
      refine ⟨"", ?_⟩
      rw [String.append_empty]
      exact tidy_rows_category rows0 label rs h row hrow

/-! ### Structure of the fetch loop -/

theorem scrapeInner_eq (oracle : Oracle) (applicant : String)
    (statuses : List String) (rowsF : String → List TidyRow)
    (h : ∀ s ∈ statuses, processCombo oracle applicant s = .ok (rowsF s)) :
    scrapeInner oracle applicant statuses =
      (statuses.map (fun s => (applicant, s)), .ok (statuses.flatMap rowsF)) := by
  induction statuses with
  | nil => rfl
  | cons s rest ih =>
    have hs := h s (by simp)
    rw [processCombo] at hs
    cases h1 : STATUS_MAP.lookup s with
    | none => rw [h1] at hs; simp at hs
    | some st =>
      rw [h1] at hs
      cases h2 : PREFIX_MAP.lookup applicant with
      | none => rw [h2] at hs; simp at hs
      | some pfx =>
        rw [h2] at hs
        have hs2 : fetchCombo (oracle applicant s) (pfx ++ st.2) =
            Except.ok (rowsF s) := hs
        simp [scrapeInner, h1, h2, hs2, ih (fun x hx => h x (by simp [hx]))]

theorem scrapeCollect_eq (oracle : Oracle) (ts ss : List String)
    (rowsF : String → String → List TidyRow)
    (h : ∀ a ∈ ts, ∀ s ∈ ss, processCombo oracle a s = .ok (rowsF a s)) :
    scrapeCollect oracle ts ss =
      (ts.flatMap (fun a => ss.map (fun s => (a, s))),
       .ok (ts.flatMap (fun a => ss.flatMap (fun s => rowsF a s)))) := by
  induction ts with
  | nil => rfl
  | cons a rest ih =>
    have hinner := scrapeInner_eq oracle a ss (rowsF a) (fun s hs => h a (by simp) s hs)
    simp [scrapeCollect, hinner, ih (fun x hx s hs => h x (by simp [hx]) s hs)]

theorem scrapeCollect_nil_ss (oracle : Oracle) (ts : List String) :
    scrapeCollect oracle ts [] = ([], .ok []) := by
  induction ts with
  | nil => rfl
  | cons a rest ih => simp [scrapeCollect, scrapeInner, ih]

theorem scrapeInner_cons (oracle : Oracle) (a s : String) (rest : List String)
    (st : String × String) (pfx : String)
    (h1 : STATUS_MAP.lookup s = some st) (h2 : PREFIX_MAP.lookup a = some pfx) :
    scrapeInner oracle a (s :: rest) =
      (match fetchCombo (oracle a s) (pfx ++ st.2) with
       | .error err => ([(a, s)], .error err)
       | .ok rows =>
         ((a, s) :: (scrapeInner oracle a rest).1,
          (scrapeInner oracle a rest).2.map (fun tl => rows ++ tl))) := by
  rw [scrapeInner, h1, h2]

theorem scrapeInner_mem (oracle : Oracle) (applicant : String)
    (statuses : List String) (rows : List TidyRow)
    (h : (scrapeInner oracle applicant statuses).2 = .ok rows) :
    ∀ r ∈ rows, ∃ pfx, PREFIX_MAP.lookup applicant = some pfx ∧
      ∃ tail, r.Category = Json.str (pfx ++ tail) := by
  induction statuses generalizing rows with
  | nil =>
    simp [scrapeInner] at h
    subst h; simp
  | cons s rest ih =>
    rw [scrapeInner] at h
    cases h1 : STATUS_MAP.lookup s with
    | none => rw [h1] at h; simp at h
    | some st =>
      rw [h1] at h
      cases h2 : PREFIX_MAP.lookup applicant with
      | none => rw [h2] at h; simp at h
      | some pfx =>
        rw [h2] at h
        have h' : (match fetchCombo (oracle applicant s) (pfx ++ st.2) with
            | Except.error err =>
              (([(applicant, s)] : List (String × String)),
               (Except.error err : Except PyError (List TidyRow)))
            | Except.ok rows1 =>
              ((applicant, s) :: (scrapeInner oracle applicant rest).1,
               (scrapeInner oracle applicant rest).2.map
                 (fun tl => rows1 ++ tl))).2 = .ok rows := h
        clear h
        cases h3 : fetchCombo (oracle applicant s) (pfx ++ st.2) with
        | error err => rw [h3] at h'; simp at h'
        | ok rows1 =>
          rw [h3] at h'
          cases h4 : (scrapeInner oracle applicant rest).2 with
          | error err => simp [h4] at h'
          | ok rows2 =>
            simp [h4] at h'
            subst h'
            intro r hr
            rcases List.mem_append.mp hr with h5 | h5
            · obtain ⟨tail, htail⟩ := fetchCombo_prefix _ _ _ h3 r h5
              exact ⟨pfx, rfl, st.2 ++ tail,
                by rw [htail, String.append_assoc]⟩
            · obtain ⟨pfx2, hpfx2, tail, htail⟩ := ih rows2 h4 r h5
              rw [h2] at hpfx2
              cases hpfx2
              exact ⟨pfx, rfl, tail, htail⟩

theorem scrapeCollect_mem (oracle : Oracle) (ts ss : List String)
    (collected : List TidyRow)
    (h : (scrapeCollect oracle ts ss).2 = .ok collected) :
    ∀ r ∈ collected, ∃ a ∈ ts, ∃ pfx, PREFIX_MAP.lookup a = some pfx ∧
      ∃ tail, r.Category = Json.str (pfx ++ tail) := by
  induction ts generalizing collected with
  | nil =>
    simp [scrapeCollect] at h
    subst h; simp
  | cons a rest ih =>
    rw [scrapeCollect] at h
    cases hse : scrapeInner oracle a ss with
    | mk calls res =>
      rw [hse] at h
      cases res with
      | error err => simp at h
      | ok rows1 =>
        cases h4 : (scrapeCollect oracle rest ss).2 with
        | error err => simp [h4] at h
        | ok rows2 =>
          simp [h4] at h
          subst h
          intro r hr
          rcases List.mem_append.mp hr with h5 | h5
          · have hrows1 : (scrapeInner oracle a ss).2 = .ok rows1 := by
              rw [hse]
            obtain ⟨pfx, hpfx, tail, htail⟩ := scrapeInner_mem _ _ _ _ hrows1 r h5
            exact ⟨a, by simp, pfx, hpfx, tail, htail⟩
          · obtain ⟨a2, ha2, pfx, hpfx, tail, htail⟩ := ih rows2 h4 r h5
            exact ⟨a2, by simp [ha2], pfx, hpfx, tail, htail⟩

/-! ### Claim theorems -/

/-- C6: the aggregation step (`drop_duplicates().reset_index(drop=True)`
inside `finalize`) keeps exactly the rows that are not duplicates of an
earlier row across all four fields (`keepFirstSpec`, stated from the
spec's words), keeps the first occurrence of each distinct row, produces
a duplicate-free table, preserves the relative order of the kept rows
(sublist of the input; indices are the contiguous list positions), and
never yields more rows than it was given. -/
theorem finalize_dedup_spec (l : List TidyRow) :
    (finalize l).rows = keepFirstSpec l ∧
    (finalize l).rows.Nodup ∧
    ((finalize l).rows).Sublist l ∧
    (∀ r : TidyRow, r ∈ (finalize l).rows ↔ r ∈ l) ∧
    (finalize l).rows.length ≤ l.length :=
  ⟨drop_duplicates_eq_keepFirstSpec l, nodup_drop_duplicates l,
    drop_duplicates_sublist l, fun r => mem_drop_duplicates l r,
    (drop_duplicates_sublist l).length_le⟩

/-- C7: the aggregation/deduplication step is idempotent — applying
`finalize` to the rows of its own output returns that output
unchanged. -/
theorem finalize_idempotent (l : List TidyRow) :
    finalize ((finalize l).rows) = finalize l := by
  simp [finalize, drop_duplicates_idem]

/-- C10: invoked with an empty applicant-type list or an empty status
list, `scrape` raises nothing and issues no network calls, and returns
an empty table that still has exactly the four columns Name, Address,
Email, Category in that order. -/
theorem scrape_empty_selection (oracle : Oracle) (ts ss : List String) :
    scrape oracle [] ss =
      ([], .ok { columns := ["Name", "Address", "Email", "Category"],
                 rows := [] }) ∧
    scrape oracle ts [] =
      ([], .ok { columns := ["Name", "Address", "Email", "Category"],
                 rows := [] }) := by
  constructor
  · simp [scrape, scrapeCollect, finalize, drop_duplicates, drop_duplicates.go]
  · simp [scrape, scrapeCollect_nil_ss, finalize, drop_duplicates, drop_duplicates.go]

/-- C2 (counterexample): a response whose `"data"` key is present but
null does not degrade to zero rows — the chained `.get` calls raise
`AttributeError` (`None` has no `.get`), and the exception escapes the
`requests.RequestException` handler, aborting the whole run. -/
theorem normalize_null_data_raises :
    normalize (Json.obj [("data", Json.null)]) "BO-Registered" =
      .error .attributeError ∧
    normalize (Json.obj [("data", Json.null)]) "BO-Registered" ≠
      .ok ([] : List TidyRow) ∧
    (scrape (fun _ _ => .success (Json.obj [("data", Json.null)]))
      ["Brand Owner"] ["Registered"]).2 = .error .attributeError := by
  refine ⟨rfl, ?_, rfl⟩
  decide

/-- C2 (amended): the path `data.tableData.bodyContent` is read
defensively with respect to *missing* keys only — any absent
intermediate key yields zero rows and no error — but a top-level
non-object body, a present-but-non-object `"data"` or `"tableData"`
value, or a present-but-null `"bodyContent"` raises (`AttributeError`
resp. `TypeError`) instead of degrading to zero rows. -/
theorem normalize_defensive_path (cat : String) :
    (∀ kvs : List (String × Json), kvs.lookup "data" = none →
      normalize (Json.obj kvs) cat = .ok []) ∧
    (∀ kvs kvs2 : List (String × Json),
      kvs.lookup "data" = some (Json.obj kvs2) →
      kvs2.lookup "tableData" = none →
      normalize (Json.obj kvs) cat = .ok []) ∧
    (∀ kvs kvs2 kvs3 : List (String × Json),
      kvs.lookup "data" = some (Json.obj kvs2) →
      kvs2.lookup "tableData" = some (Json.obj kvs3) →
      kvs3.lookup "bodyContent" = none →
      normalize (Json.obj kvs) cat = .ok []) ∧
    (∀ body : Json, body.isObj = false →
      normalize body cat = .error .attributeError) ∧
    (∀ (kvs : List (String × Json)) (v : Json),
      kvs.lookup "data" = some v → v.isObj = false →
      normalize (Json.obj kvs) cat = .error .attributeError) ∧
    (∀ (kvs kvs2 : List (String × Json)) (v : Json),
      kvs.lookup "data" = some (Json.obj kvs2) →
      kvs2.lookup "tableData" = some v → v.isObj = false →
      normalize (Json.obj kvs) cat = .error .attributeError) ∧
    (∀ kvs kvs2 kvs3 : List (String × Json),
      kvs.lookup "data" = some (Json.obj kvs2) →
      kvs2.lookup "tableData" = some (Json.obj kvs3) →
      kvs3.lookup "bodyContent" = some Json.null →
      normalize (Json.obj kvs) cat = .error .typeError) := by
  refine ⟨?_, ?_, ?_, ?_, ?_, ?_, ?_⟩
  · intro kvs h
    simp [normalize, extractBodyContent, dictGet, h, tidy_rows, pyIter,
      tidyRowsList]
  · intro kvs kvs2 h h2
    simp [normalize, extractBodyContent, dictGet, h, h2, tidy_rows, pyIter,
      tidyRowsList]
  · intro kvs kvs2 kvs3 h h2 h3
    simp [normalize, extractBodyContent, dictGet, h, h2, h3, tidy_rows,
      pyIter, tidyRowsList]
  · intro body hobj
    cases body <;> simp_all [normalize, extractBodyContent, Json.isObj]
  · intro kvs v hv hobj
    cases v <;> simp_all [normalize, extractBodyContent, dictGet, Json.isObj]
  · intro kvs kvs2 v hv h2 hobj
    cases v <;> simp_all [normalize, extractBodyContent, dictGet, Json.isObj]
  · intro kvs kvs2 kvs3 h h2 h3
    simp [normalize, extractBodyContent, dictGet, h, h2, h3, tidy_rows, pyIter]

/-- Witness for the amended C2 statement at concrete inputs. -/
theorem normalize_defensive_path_witness :
    normalize (Json.obj []) "c" = .ok [] ∧
    normalize (Json.obj [("data", Json.str "oops")]) "c" =
      .error .attributeError :=
  ⟨(normalize_defensive_path "c").1 [] rfl,
   (normalize_defensive_path "c").2.2.2.2.1 [("data", Json.str "oops")]
     (Json.str "oops") rfl rfl⟩

/-- C3 (counterexample): a `bodyContent` element that is not an object
is not skipped — `row.get` on the string element `"x"` raises
`AttributeError`, so no row is produced even for the well-formed object
element that follows, and the exception escapes the network-error
handler, aborting the run. -/
theorem tidy_rows_nonobj_raises :
    tidy_rows (Json.arr [Json.str "x", Json.obj [("company", Json.str "A")]])
        "c" = .error .attributeError ∧
    tidy_rows (Json.arr [Json.str "x", Json.obj [("company", Json.str "A")]])
        "c" ≠
      .ok [{ Name := Json.str "A", Address := Json.str "",
             Email := Json.str "", Category := Json.str "c" }] ∧
    (scrape (fun _ _ => .success (Json.obj [("data", Json.obj [("tableData",
        Json.obj [("bodyContent", Json.arr [Json.str "x"])])])]))
      ["Brand Owner"] ["Registered"]).2 = .error .attributeError := by
  refine ⟨rfl, ?_, rfl⟩
  decide

/-- C3 (amended): when every element of `bodyContent` is a well-formed
object, `tidy_rows` normalizes them all (one output row per element,
each carrying the category label); as soon as some element is not an
object, `tidy_rows` raises `AttributeError` instead of skipping it. -/
theorem tidy_rows_obj_elements (elems : List Json) (cat : String) :
    ((∀ e ∈ elems, e.isObj = true) →
      ∃ rs, tidy_rows (Json.arr elems) cat = .ok rs ∧
        rs.length = elems.length ∧ ∀ r ∈ rs, r.Category = Json.str cat) ∧
    ((∃ e ∈ elems, e.isObj = false) →
      tidy_rows (Json.arr elems) cat = .error .attributeError) := by
  constructor
  · intro h
    obtain ⟨rs, hrs, hlen, hcat⟩ := tidyRowsList_ok elems cat h
    exact ⟨rs, by simp [tidy_rows, pyIter, hrs], hlen, hcat⟩
  · intro h
    simp [tidy_rows, pyIter, tidyRowsList_err elems cat h]

/-- Witness for the amended C3 statement at concrete inputs. -/
theorem tidy_rows_obj_elements_witness :
    (∃ rs, tidy_rows (Json.arr [Json.obj []]) "c" = .ok rs ∧
      rs.length = [Json.obj []].length ∧
      ∀ r ∈ rs, r.Category = Json.str "c") ∧
    tidy_rows (Json.arr [Json.null]) "c" = .error .attributeError :=
  ⟨(tidy_rows_obj_elements [Json.obj []] "c").1 (by decide),
   (tidy_rows_obj_elements [Json.null] "c").2 ⟨Json.null, by decide⟩⟩

/-- C4 (counterexample): the payload builder does not reject
non-positive record counts — for the recognized label "Registered" it
happily returns a payload with `countValue = 0` or `countValue = -5`
(the `min_value=1` guard lives in the UI widget, outside the core, and
`int(count_value)` only coerces). -/
theorem build_payload_accepts_nonpositive :
    buildPayloadFromUi "Registered" "Producer" 0 =
      some { status := "registered", countValue := 0,
             statusText := "Registered", applicantType := "Producer" } ∧
    buildPayloadFromUi "Registered" "Producer" (-5) =
      some { status := "registered", countValue := -5,
             statusText := "Registered", applicantType := "Producer" } :=
  ⟨rfl, rfl⟩

/-- C4 (amended): an unrecognized status UI label makes the payload
builder fail (the `STATUS_MAP[status_ui]` lookup raises `KeyError`,
modelled as `none`); for a recognized label the builder succeeds for
*any* integer record count — including non-positive ones, which are not
rejected — and the resulting payload fields carry exactly the mapped
API tokens `(status_api, status_text)` from `STATUS_MAP`, the applicant
type, and the coerced integer count, with no side effects. -/
theorem build_payload_mapped_tokens :
    (∀ (ui a : String) (c : Int), STATUS_MAP.lookup ui = none →
      buildPayloadFromUi ui a c = none) ∧
    (∀ (ui a : String) (c : Int) (st : String × String),
      STATUS_MAP.lookup ui = some st →
      buildPayloadFromUi ui a c =
        some { status := st.1, countValue := c, statusText := st.2,
               applicantType := a }) := by
  constructor
  · intro ui a c h
    simp [buildPayloadFromUi, h]
  · intro ui a c st h
    simp [buildPayloadFromUi, h, build_payload]

/-- Witness for the amended C4 statement at concrete inputs. -/
theorem build_payload_mapped_tokens_witness :
    buildPayloadFromUi "Rejected" "Producer" 5 = none ∧
    buildPayloadFromUi "In Process" "Importer" 7 =
      some { status := "InProgress", countValue := 7,
             statusText := "In Process", applicantType := "Importer" } :=
  ⟨build_payload_mapped_tokens.1 "Rejected" "Producer" 5 (by decide),
   build_payload_mapped_tokens.2 "In Process" "Importer" 7
     ("InProgress", "In Process") (by decide)⟩

theorem pyOr_dictGet_str (kvs : List (String × Json)) (k s : String)
    (h : kvs.lookup k = some (Json.str s)) :
    pyOr (dictGet kvs k (Json.str "")) (Json.str "") = Json.str s := by
  by_cases hs : s = ""
  · subst hs; simp [pyOr, dictGet, h, Json.falsy]
  · simp [pyOr, dictGet, h, Json.falsy, String.isEmpty_iff, hs]

theorem pyOr_dictGet_null (kvs : List (String × Json)) (k : String)
    (h : kvs.lookup k = some Json.null) :
    pyOr (dictGet kvs k (Json.str "")) (Json.str "") = Json.str "" := by
  simp [pyOr, dictGet, h, Json.falsy]

theorem pyOr_dictGet_none (kvs : List (String × Json)) (k : String)
    (h : kvs.lookup k = none) :
    pyOr (dictGet kvs k (Json.str "")) (Json.str "") = Json.str "" := by
  simp [pyOr, dictGet, h, Json.falsy]

/-- C8: field mapping of the normalizer — `company`→Name,
`address`→Address, `email`→Email; a present-but-null field and an
absent field both map to the empty string (never the string "null");
every produced row carries the combination's category label; and the
spec's happy-path scenario holds end to end: the mocked Acme response
for the (Brand Owner, Registered) combination yields exactly one row
with Category `"BO-Registered"`. -/
theorem tidy_row_field_mapping :
    (∀ (kvs : List (String × Json)) (cat s : String),
      kvs.lookup "company" = some (Json.str s) →
      ∃ r, tidyRowOf (Json.obj kvs) cat = .ok r ∧ r.Name = Json.str s) ∧
    (∀ (kvs : List (String × Json)) (cat s : String),
      kvs.lookup "address" = some (Json.str s) →
      ∃ r, tidyRowOf (Json.obj kvs) cat = .ok r ∧ r.Address = Json.str s) ∧
    (∀ (kvs : List (String × Json)) (cat s : String),
      kvs.lookup "email" = some (Json.str s) →
      ∃ r, tidyRowOf (Json.obj kvs) cat = .ok r ∧ r.Email = Json.str s) ∧
    (∀ (kvs : List (String × Json)) (cat : String),
      kvs.lookup "company" = some Json.null →
      ∃ r, tidyRowOf (Json.obj kvs) cat = .ok r ∧ r.Name = Json.str "") ∧
    (∀ (kvs : List (String × Json)) (cat : String),
      kvs.lookup "address" = some Json.null →
      ∃ r, tidyRowOf (Json.obj kvs) cat = .ok r ∧ r.Address = Json.str "") ∧
    (∀ (kvs : List (String × Json)) (cat : String),
      kvs.lookup "email" = some Json.null →
      ∃ r, tidyRowOf (Json.obj kvs) cat = .ok r ∧ r.Email = Json.str "") ∧
    (∀ (kvs : List (String × Json)) (cat : String),
      kvs.lookup "company" = none →
      ∃ r, tidyRowOf (Json.obj kvs) cat = .ok r ∧ r.Name = Json.str "") ∧
    (∀ (kvs : List (String × Json)) (cat : String),
      kvs.lookup "address" = none →
      ∃ r, tidyRowOf (Json.obj kvs) cat = .ok r ∧ r.Address = Json.str "") ∧
    (∀ (kvs : List (String × Json)) (cat : String),
      kvs.lookup "email" = none →
      ∃ r, tidyRowOf (Json.obj kvs) cat = .ok r ∧ r.Email = Json.str "") ∧
    (∀ (kvs : List (String × Json)) (cat : String) (r : TidyRow),
      tidyRowOf (Json.obj kvs) cat = .ok r → r.Category = Json.str cat) ∧
    scrape (fun _ _ => .success acmeBody) ["Brand Owner"] ["Registered"] =
      ([("Brand Owner", "Registered")],
       .ok { columns := ["Name", "Address", "Email", "Category"],
             rows := [{ Name := Json.str "Acme Co",
                        Address := Json.str "123 Road",
                        Email := Json.str "a@x.com",
                        Category := Json.str "BO-Registered" }] }) := by
  refine ⟨?_, ?_, ?_, ?_, ?_, ?_, ?_, ?_, ?_, ?_, ?_⟩
  · exact fun kvs cat s h => ⟨_, rfl, pyOr_dictGet_str kvs "company" s h⟩
  · exact fun kvs cat s h => ⟨_, rfl, pyOr_dictGet_str kvs "address" s h⟩
  · exact fun kvs cat s h => ⟨_, rfl, pyOr_dictGet_str kvs "email" s h⟩
  · exact fun kvs cat h => ⟨_, rfl, pyOr_dictGet_null kvs "company" h⟩
  · exact fun kvs cat h => ⟨_, rfl, pyOr_dictGet_null kvs "address" h⟩
  · exact fun kvs cat h => ⟨_, rfl, pyOr_dictGet_null kvs "email" h⟩
  · exact fun kvs cat h => ⟨_, rfl, pyOr_dictGet_none kvs "company" h⟩
  · exact fun kvs cat h => ⟨_, rfl, pyOr_dictGet_none kvs "address" h⟩
  · exact fun kvs cat h => ⟨_, rfl, pyOr_dictGet_none kvs "email" h⟩
  · exact fun kvs cat r h => tidyRowOf_category h
  · decide

/-- Witness for C8 at concrete inputs. -/
theorem tidy_row_field_mapping_witness :
    (∃ r, tidyRowOf (Json.obj [("company", Json.str "Acme Co")]) "c" =
      .ok r ∧ r.Name = Json.str "Acme Co") ∧
    (∃ r, tidyRowOf (Json.obj [("email", Json.null)]) "c" = .ok r ∧
      r.Email = Json.str "") :=
  ⟨tidy_row_field_mapping.1 [("company", Json.str "Acme Co")] "c" "Acme Co"
    rfl,
   tidy_row_field_mapping.2.2.2.2.2.1 [("email", Json.null)] "c" rfl⟩

theorem crossProd_length (ts ss : List String) :
    (ts.flatMap (fun a => ss.map (fun s => (a, s)))).length =
      ts.length * ss.length := by
  induction ts with
  | nil => simp
  | cons a rest ih => simp [ih, Nat.succ_mul, Nat.add_comm]

/-- C5 (counterexample): for the valid selection
{Brand Owner} × {In Process, Registered} (2 combinations) there is a
network behavior — a 2xx JSON response `\x7b"data": null\x7d` for the first
combination — under which `scrape` issues only 1 network call instead
of 2: the `AttributeError` raised while reading the response aborts the
loop. -/
theorem scrape_call_count_counterexample :
    (scrape (fun _ _ => .success (Json.obj [("data", Json.null)]))
        ["Brand Owner"] ["In Process", "Registered"]).1 =
      [("Brand Owner", "In Process")] ∧
    (scrape (fun _ _ => .success (Json.obj [("data", Json.null)]))
        ["Brand Owner"] ["In Process", "Registered"]).1.length = 1 ∧
    (1 : Nat) ≠ ["Brand Owner"].length * ["In Process", "Registered"].length ∧
    (scrape (fun _ _ => .success (Json.obj [("data", Json.null)]))
        ["Brand Owner"] ["In Process", "Registered"]).2 =
      .error .attributeError := by
  refine ⟨rfl, rfl, by decide, rfl⟩

/-- C5 (amended): for every non-empty selection, *provided every
combination's response processes without an uncaught exception*
(network-layer failures count as processed — they yield a sentinel
row), `scrape` issues exactly |applicantTypes| × |statuses| network
calls, one per combination, visiting the applicant type in the outer
loop and the status in the inner loop, and the accumulated rows are the
per-combination row blocks concatenated in that same visit order. -/
theorem scrape_call_grid (oracle : Oracle) (ts ss : List String)
    (rowsF : String → String → List TidyRow)
    (hts : ts ≠ []) (hss : ss ≠ [])
    (h : ∀ a ∈ ts, ∀ s ∈ ss, processCombo oracle a s = .ok (rowsF a s)) :
    (scrape oracle ts ss).1 =
      ts.flatMap (fun a => ss.map (fun s => (a, s))) ∧
    (scrape oracle ts ss).1.length = ts.length * ss.length ∧
    (scrapeCollect oracle ts ss).2 =
      .ok (ts.flatMap (fun a => ss.flatMap (fun s => rowsF a s))) := by
  have hc := scrapeCollect_eq oracle ts ss rowsF h
  have hcalls : (scrape oracle ts ss).1 =
      ts.flatMap (fun a => ss.map (fun s => (a, s))) := by
    simp [scrape, hc]
  refine ⟨hcalls, ?_, by simp [hc]⟩
  rw [hcalls, crossProd_length]

/-- Witness for the amended C5 statement at a concrete selection. -/
theorem scrape_call_grid_witness :
    (scrape (fun _ _ => NetResult.failure "m")
        ["Brand Owner"] ["Registered"]).1 =
      ["Brand Owner"].flatMap (fun a => ["Registered"].map (fun s => (a, s))) ∧
    (scrape (fun _ _ => NetResult.failure "m")
        ["Brand Owner"] ["Registered"]).1.length =
      ["Brand Owner"].length * ["Registered"].length ∧
    (scrapeCollect (fun _ _ => NetResult.failure "m")
        ["Brand Owner"] ["Registered"]).2 =
      .ok (["Brand Owner"].flatMap (fun _ => ["Registered"].flatMap
        (fun _ => [sentinelRow "BO-Registered" "m"]))) :=
  scrape_call_grid (fun _ _ => NetResult.failure "m")
    ["Brand Owner"] ["Registered"]
    (fun _ _ => [sentinelRow "BO-Registered" "m"])
    (by decide) (by decide) (by decide)

theorem processCombo_failure (oracle : Oracle) (a s lbl msg : String)
    (hlbl : categoryLabel a s = some lbl)
    (hfail : oracle a s = NetResult.failure msg) :
    processCombo oracle a s = .ok [sentinelRow lbl msg] := by
  cases h1 : STATUS_MAP.lookup s with
  | none => simp [categoryLabel, h1] at hlbl
  | some st =>
    cases h2 : PREFIX_MAP.lookup a with
    | none => simp [categoryLabel, h1, h2] at hlbl
    | some pfx =>
      simp [categoryLabel, h1, h2] at hlbl
      subst hlbl
      have hp : processCombo oracle a s =
          fetchCombo (oracle a s) (pfx ++ st.2) := by
        rw [processCombo, h1, h2]
      rw [hp, hfail]
      rfl

/-- C1: when the network call of one combination fails at the network
layer (any `requests.RequestException`: non-2xx status, timeout,
connection error, malformed JSON), the run is not aborted — provided
every other combination also processes without an uncaught exception,
`scrape` returns a table, that table contains exactly one sentinel row
for the failed combination (Name, Address, Email all empty and Category
equal to the combination's category label followed by
`" (ERROR: " ++ msg ++ ")"`), and every row produced for the other
combinations is still present. -/
theorem scrape_failure_isolation (oracle : Oracle) (ts ss : List String)
    (a0 s0 msg lbl : String) (rowsF : String → String → List TidyRow)
    (ha0 : a0 ∈ ts) (hs0 : s0 ∈ ss)
    (hlbl : categoryLabel a0 s0 = some lbl)
    (hfail : oracle a0 s0 = NetResult.failure msg)
    (hok : ∀ a ∈ ts, ∀ s ∈ ss, (a, s) ≠ (a0, s0) →
      processCombo oracle a s = .ok (rowsF a s)) :
    ∃ df : DataFrame, (scrape oracle ts ss).2 = .ok df ∧
      df.rows.count (sentinelRow lbl msg) = 1 ∧
      ∀ a ∈ ts, ∀ s ∈ ss, (a, s) ≠ (a0, s0) →
        ∀ r ∈ rowsF a s, r ∈ df.rows := by
  have hfl := processCombo_failure oracle a0 s0 lbl msg hlbl hfail
  have H : ∀ a ∈ ts, ∀ s ∈ ss, processCombo oracle a s =
      .ok (if (a, s) = (a0, s0) then [sentinelRow lbl msg] else rowsF a s) := by
    intro a ha s hs
    by_cases he : (a, s) = (a0, s0)
    · rw [if_pos he]
      have ha' : a = a0 := congrArg Prod.fst he
      have hs' : s = s0 := congrArg Prod.snd he
      subst ha'; subst hs'
      exact hfl
    · rw [if_neg he]
      exact hok a ha s hs he
  have hc := scrapeCollect_eq oracle ts ss
    (fun a s => if (a, s) = (a0, s0) then [sentinelRow lbl msg] else rowsF a s)
    H
  refine ⟨finalize (ts.flatMap (fun a => ss.flatMap (fun s =>
      if (a, s) = (a0, s0) then [sentinelRow lbl msg] else rowsF a s))),
    by simp [scrape, hc], ?_, ?_⟩
  · have hmem : sentinelRow lbl msg ∈ ts.flatMap (fun a => ss.flatMap (fun s =>
        if (a, s) = (a0, s0) then [sentinelRow lbl msg] else rowsF a s)) := by
      refine List.mem_flatMap.mpr ⟨a0, ha0, ?_⟩
      refine List.mem_flatMap.mpr ⟨s0, hs0, ?_⟩
      simp
    have hmem2 : sentinelRow lbl msg ∈ drop_duplicates
        (ts.flatMap (fun a => ss.flatMap (fun s =>
          if (a, s) = (a0, s0) then [sentinelRow lbl msg] else rowsF a s))) :=
      (mem_drop_duplicates _ _).mpr hmem
    exact List.count_eq_one_of_mem (nodup_drop_duplicates _) hmem2
  · intro a ha s hs hne r hr
    have hmem : r ∈ ts.flatMap (fun a => ss.flatMap (fun s =>
        if (a, s) = (a0, s0) then [sentinelRow lbl msg] else rowsF a s)) := by
      refine List.mem_flatMap.mpr ⟨a, ha, ?_⟩
      refine List.mem_flatMap.mpr ⟨s, hs, ?_⟩
      rw [if_neg hne]
      exact hr
    exact (mem_drop_duplicates _ r).mpr hmem

/-- Witness for C1 at a concrete failing selection. -/
theorem scrape_failure_isolation_witness :
    ∃ df : DataFrame,
      (scrape (fun _ _ => NetResult.failure "timeout")
        ["Brand Owner", "Producer"] ["Registered"]).2 = .ok df ∧
      df.rows.count (sentinelRow "Pro-Registered" "timeout") = 1 ∧
      ∀ a ∈ ["Brand Owner", "Producer"], ∀ s ∈ ["Registered"],
        (a, s) ≠ ("Producer", "Registered") →
        ∀ r ∈ (fun _ _ => [sentinelRow "BO-Registered" "timeout"] :
            String → String → List TidyRow) a s, r ∈ df.rows :=
  scrape_failure_isolation (fun _ _ => NetResult.failure "timeout")
    ["Brand Owner", "Producer"] ["Registered"] "Producer" "Registered"
    "timeout" "Pro-Registered"
    (fun _ _ => [sentinelRow "BO-Registered" "timeout"])
    (by decide) (by decide) (by decide) rfl (by decide)

theorem processCombo_prefix (oracle : Oracle) (a s : String)
    (rs : List TidyRow) (h : processCombo oracle a s = .ok rs) :
    ∃ pfx, PREFIX_MAP.lookup a = some pfx ∧
      ∀ r ∈ rs, ∃ tail, r.Category = Json.str (pfx ++ tail) := by
  cases h1 : STATUS_MAP.lookup s with
  | none =>
    have he : processCombo oracle a s = .error (.keyError s) := by
      rw [processCombo, h1]
    rw [he] at h
    simp at h
  | some st =>
    cases h2 : PREFIX_MAP.lookup a with
    | none =>
      have he : processCombo oracle a s = .error (.keyError a) := by
        rw [processCombo, h1, h2]
      rw [he] at h
      simp at h
    | some pfx =>
      have hp : processCombo oracle a s =
          fetchCombo (oracle a s) (pfx ++ st.2) := by
        rw [processCombo, h1, h2]
      rw [hp] at h
      refine ⟨pfx, rfl, fun r hr => ?_⟩
      obtain ⟨tail, htail⟩ := fetchCombo_prefix _ _ _ h r hr
      exact ⟨st.2 ++ tail, by rw [htail, String.append_assoc]⟩

theorem scrapeInner_mem_combo (oracle : Oracle) (applicant : String)
    (statuses : List String) (rows : List TidyRow)
    (h : (scrapeInner oracle applicant statuses).2 = .ok rows) :
    ∀ r ∈ rows, ∃ s ∈ statuses, ∃ rs,
      processCombo oracle applicant s = .ok rs ∧ r ∈ rs := by
  induction statuses generalizing rows with
  | nil =>
    simp [scrapeInner] at h
    subst h; simp
  | cons s rest ih =>
    rw [scrapeInner] at h
    cases h1 : STATUS_MAP.lookup s with
    | none => rw [h1] at h; simp at h
    | some st =>
      rw [h1] at h
      cases h2 : PREFIX_MAP.lookup applicant with
      | none => rw [h2] at h; simp at h
      | some pfx =>
        rw [h2] at h
        have h' : (match fetchCombo (oracle applicant s) (pfx ++ st.2) with
            | Except.error err =>
              (([(applicant, s)] : List (String × String)),
               (Except.error err : Except PyError (List TidyRow)))
            | Except.ok rows1 =>
              ((applicant, s) :: (scrapeInner oracle applicant rest).1,
               (scrapeInner oracle applicant rest).2.map
                 (fun tl => rows1 ++ tl))).2 = .ok rows := h
        clear h
        cases h3 : fetchCombo (oracle applicant s) (pfx ++ st.2) with
        | error err => rw [h3] at h'; simp at h'
        | ok rows1 =>
          rw [h3] at h'
          cases h4 : (scrapeInner oracle applicant rest).2 with
          | error err => simp [h4] at h'
          | ok rows2 =>
            simp [h4] at h'
            subst h'
            have hps : processCombo oracle applicant s = .ok rows1 := by
              have hp : processCombo oracle applicant s =
                  fetchCombo (oracle applicant s) (pfx ++ st.2) := by
                rw [processCombo, h1, h2]
              rw [hp, h3]
            intro r hr
            rcases List.mem_append.mp hr with h5 | h5
            · exact ⟨s, by simp, rows1, hps, h5⟩
            · obtain ⟨s2, hs2, rs, hrs, hr2⟩ := ih rows2 h4 r h5
              exact ⟨s2, by simp [hs2], rs, hrs, hr2⟩

theorem scrapeCollect_mem_combo (oracle : Oracle) (ts ss : List String)
    (collected : List TidyRow)
    (h : (scrapeCollect oracle ts ss).2 = .ok collected) :
    ∀ r ∈ collected, ∃ a ∈ ts, ∃ s ∈ ss, ∃ rs,
      processCombo oracle a s = .ok rs ∧ r ∈ rs := by
  induction ts generalizing collected with
  | nil =>
    simp [scrapeCollect] at h
    subst h; simp
  | cons a rest ih =>
    rw [scrapeCollect] at h
    cases hse : scrapeInner oracle a ss with
    | mk calls res =>
      rw [hse] at h
      cases res with
      | error err => simp at h
      | ok rows1 =>
        cases h4 : (scrapeCollect oracle rest ss).2 with
        | error err => simp [h4] at h
        | ok rows2 =>
          simp [h4] at h
          subst h
          intro r hr
          rcases List.mem_append.mp hr with h5 | h5
          · have hrows1 : (scrapeInner oracle a ss).2 = .ok rows1 := by
              rw [hse]
            obtain ⟨s, hs, rs, hrs, hr1⟩ :=
              scrapeInner_mem_combo _ _ _ _ hrows1 r h5
            exact ⟨a, by simp, s, hs, rs, hrs, hr1⟩
          · obtain ⟨a2, ha2, s, hs, rs, hrs, hr2⟩ := ih rows2 h4 r h5
            exact ⟨a2, by simp [ha2], s, hs, rs, hrs, hr2⟩

/-- C9: in every table that `scrape` returns, each row — sentinel rows
included — was produced by some selected (applicant type, status)
combination (it occurs in that combination's `processCombo` output),
and every combination that produces a row stamps it with a Category
string starting with the exact fixed marker (`PREFIX_MAP`) of *that*
combination's applicant type — so each row's Category starts with the
prefix of the applicant type of the combination that produced it. -/
theorem scrape_category_prefix (oracle : Oracle) (ts ss : List String)
    (df : DataFrame) (h : (scrape oracle ts ss).2 = .ok df) :
    ∀ r ∈ df.rows,
      (∃ a ∈ ts, ∃ s ∈ ss, ∃ rs,
        processCombo oracle a s = .ok rs ∧ r ∈ rs) ∧
      (∀ (a s : String) (rs : List TidyRow),
        processCombo oracle a s = .ok rs → r ∈ rs →
        ∃ pfx, PREFIX_MAP.lookup a = some pfx ∧
          ∃ tail, r.Category = Json.str (pfx ++ tail)) := by
  rw [scrape] at h
  cases hc : scrapeCollect oracle ts ss with
  | mk calls res =>
    rw [hc] at h
    cases res with
    | error err => simp at h
    | ok collected =>
      simp at h
      subst h
      intro r hr
      have hr' : r ∈ collected := (mem_drop_duplicates collected r).mp hr
      refine ⟨scrapeCollect_mem_combo oracle ts ss collected (by rw [hc]) r hr',
        fun a s rs hrs hmem => ?_⟩
      obtain ⟨pfx, hpfx, hall⟩ := processCombo_prefix oracle a s rs hrs
      exact ⟨pfx, hpfx, hall r hmem⟩

/-- Witness for C9 at a concrete run. -/
theorem scrape_category_prefix_witness :
    (scrape (fun _ _ => NetResult.failure "boom")
        ["Producer"] ["Registered"]).2 =
      .ok { columns := ["Name", "Address", "Email", "Category"],
            rows := [sentinelRow "Pro-Registered" "boom"] } ∧
    ∀ r ∈ ({ columns := ["Name", "Address", "Email", "Category"],
             rows := [sentinelRow "Pro-Registered" "boom"] } : DataFrame).rows,
      (∃ a ∈ ["Producer"], ∃ s ∈ ["Registered"], ∃ rs,
        processCombo (fun _ _ => NetResult.failure "boom") a s = .ok rs ∧
          r ∈ rs) ∧
      (∀ (a s : String) (rs : List TidyRow),
        processCombo (fun _ _ => NetResult.failure "boom") a s = .ok rs →
        r ∈ rs →
        ∃ pfx, PREFIX_MAP.lookup a = some pfx ∧
          ∃ tail, r.Category = Json.str (pfx ++ tail)) :=
  ⟨by decide,
   scrape_category_prefix (fun _ _ => NetResult.failure "boom")
     ["Producer"] ["Registered"] _ (by decide)⟩

end Scrap
